import Mathlib

/-!
Verification of the file-versioning and row-diff engine of TZautoSabana
(`src/file_manager.py`, orchestrated by `src/main.py`).

Files are modelled after parsing: a tabular file is a `List (List String)`
(first row the header, remaining rows the data), matching the value of
`list(csv.reader(f, delimiter=delimiter))` in the source.  The filesystem is
modelled as a partial map from paths to file contents, and the MD5 function
of `hashlib` is taken as an arbitrary function of the serialized content
(`calculate_sorted_md5` is deterministic in the bytes it serializes, which is
all the theorems below use).
-/

namespace TZ

/-- One-character string for a delimiter character. -/
def chStr (c : Char) : String := ⟨[c]⟩

/-- Double every quote character, as `csv.writer` does inside a quoted field. -/
def escQuote (s : String) : String :=
  ⟨s.data.foldr (fun c acc => if c = '"' then '"' :: '"' :: acc else c :: acc) []⟩

/-- Whether `csv.writer` with `QUOTE_MINIMAL` must quote this field: it
contains the delimiter, the quote character, or a line-break character. -/
def needsQuote (delim : Char) (s : String) : Bool :=
  s.data.any (fun c => c = delim || c = '"' || c = '\n' || c = '\r')

/-- Serialization of one field under `csv.QUOTE_MINIMAL` (the default used by
`calculate_sorted_md5`). -/
def quoteMinimal (delim : Char) (s : String) : String :=
  if needsQuote delim s then "\"" ++ escQuote s ++ "\"" else s

/-- Serialization of one field under `csv.QUOTE_ALL` (used by
`_save_audit_file`). -/
def quoteAll (s : String) : String :=
  "\"" ++ escQuote s ++ "\""

/-- Join a list of already-serialized fields with the delimiter. -/
def joinWith (delim : Char) : List String → String
  | [] => ""
  | [x] => x
  | x :: y :: xs => x ++ chStr delim ++ joinWith delim (y :: xs)

/-- One CSV record under `QUOTE_MINIMAL`, with the `lineterminator='\n'` used
throughout `file_manager.py`. -/
def writeRowMin (delim : Char) (row : List String) : String :=
  joinWith delim (row.map (quoteMinimal delim)) ++ "\n"

/-- Serialize a list of rows under `QUOTE_MINIMAL`. -/
def writeRowsMin (delim : Char) (rows : List (List String)) : String :=
  String.join (rows.map (writeRowMin delim))

/-- One CSV record under `QUOTE_ALL`, with `lineterminator='\n'`. -/
def writeRowAll (delim : Char) (row : List String) : String :=
  joinWith delim (row.map quoteAll) ++ "\n"

/-- Serialize a list of rows under `QUOTE_ALL`, header first, as
`_save_audit_file` writes them. -/
def writeRowsAll (delim : Char) (rows : List (List String)) : String :=
  String.join (rows.map (writeRowAll delim))

/-- Numeric key of one field: its sequence of Unicode code points.  Python
compares strings lexicographically by code point. -/
def strKey (s : String) : List Nat := s.data.map Char.toNat

/-- Numeric key of one row.  Python compares lists lexicographically, so
`data.sort()` in `calculate_sorted_md5` sorts rows by this key under the
lexicographic order. -/
def rowKey (r : List String) : List (List Nat) := r.map strKey

/-- The total order by which `data.sort()` sorts the data rows. -/
def rowLeP (a b : List String) : Prop := rowKey a ≤ rowKey b

instance : DecidableRel rowLeP :=
  fun a b => inferInstanceAs (Decidable (rowKey a ≤ rowKey b))

/-- The sorted copy of the data rows produced by `data.sort()` (line 56 of
`file_manager.py`).  Any sorting algorithm yields the same list because the
order is total and antisymmetric; insertion sort is used for the embedding. -/
def sortRows (data : List (List String)) : List (List String) :=
  List.insertionSort rowLeP data

/-- Remove the entry at index `i` from a row when the row is long enough,
exactly the `if len(row) > item_idx: row.pop(item_idx)` of lines 49-51. -/
def popIdx (i : Nat) (row : List String) : List String :=
  if i < row.length then row.eraseIdx i else row

/-- Embedding of `FileManager.calculate_sorted_md5` (lines 36-66) on the
parsed rows of the file: locate the volatile column `"Item"` in the header,
drop it from the header and from every sufficiently long data row, sort the
data rows, serialize header then sorted data with the detected delimiter, and
hash the result.  `md5` stands for `hashlib.md5(...).hexdigest()`.  An empty
file hashes to the digest of the empty byte string (lines 36-37). -/
def calculate_sorted_md5 (md5 : String → String) (delim : Char)
    (rows : List (List String)) : String :=
  match rows with
  | [] => md5 ""
  | header :: data =>
    match header.findIdx? (fun s => s = "Item") with
    | some i =>
        md5 (writeRowsMin delim (header.eraseIdx i :: sortRows (data.map (popIdx i))))
    | none =>
        md5 (writeRowsMin delim (header :: sortRows data))

/-- A filesystem state: a partial map from paths to file contents. -/
def FS : Type := String → Option String

/-- Update the filesystem at one path. -/
def fsSet (fs : FS) (p : String) (v : Option String) : FS :=
  fun q => if q = p then v else fs q

/-- An atomic `os.rename` / same-directory `shutil.move` of an existing file:
the content leaves `src` and lands on `dst` (overwriting `dst`). -/
def fsMove (fs : FS) (src dst : String) : FS :=
  fsSet (fsSet fs src none) dst (fs src)

/-- Embedding of `os.path.join` for the POSIX-style separator. -/
def joinPath (dir name : String) : String := dir ++ "/" ++ name

/-- Index of the last occurrence of `c` in `l`, or `none`. -/
def lastIdxOf (c : Char) (l : List Char) : Option Nat :=
  (l.enum.filter (fun p => p.2 = c)).getLast?.map (fun p => p.1)

/-- Embedding of `os.path.splitext`: split at the last dot, unless every
character of the basename before that dot is itself a dot (so a leading-dot
name such as `.bashrc` keeps its dot in the root part). -/
def splitext (s : String) : String × String :=
  let cs := s.data
  let sepIdx : Nat := match lastIdxOf '/' cs with | some i => i + 1 | none => 0
  match lastIdxOf '.' cs with
  | none => (s, "")
  | some d =>
      if sepIdx ≤ d ∧ ((List.range cs.length).any
          (fun j => decide (sepIdx ≤ j ∧ j < d) && !(cs.getD j '.' = '.'))) then
        (⟨cs.take d⟩, ⟨cs.drop d⟩)
      else (s, "")

/-- The observable outcome of one `manage_versioning` call, one constructor
per return path of lines 96-131 of `file_manager.py`. -/
inductive Outcome where
  | Created
  | DiscardedIdentical
  | Replaced
  | BackupFailed
deriving DecidableEq, Repr

/-- Embedding of `FileManager.manage_versioning` (lines 82-131).  `digestFn`
stands for `calculate_sorted_md5` as a function of a file's contents (it is
deterministic in them), `renameOk` tells whether the `os.rename` of the
canonical file to its backup succeeds (lines 120-127), and `timestamp` is the
`time.strftime` value of line 114.  `none` models an uncaught exception (a
move whose source is missing). -/
def manage_versioning (digestFn : String → String) (renameOk : Bool)
    (timestamp : String) (fs : FS)
    (newFilePath targetDir targetFilename : String) : Option (Outcome × FS) :=
  let finalPath := joinPath targetDir targetFilename
  match fs finalPath with
  | none =>
      match fs newFilePath with
      | none => none
      | some _ => some (Outcome.Created, fsMove fs newFilePath finalPath)
  | some oldContent =>
      match fs newFilePath with
      | none => none
      | some newContent =>
          if digestFn newContent = digestFn oldContent then
            some (Outcome.DiscardedIdentical, fsSet fs newFilePath none)
          else
            let ne := splitext targetFilename
            let backupPath := joinPath targetDir (ne.1 ++ "_" ++ timestamp ++ ne.2)
            if renameOk then
              some (Outcome.Replaced,
                fsMove (fsMove fs finalPath backupPath) newFilePath finalPath)
            else
              some (Outcome.BackupFailed, fs)

/-- Embedding of `FileManager._save_audit_file` (lines 133-160).  `renameOk`
tells whether the rotation `os.rename` of lines 147-150 succeeds; a failed
rotation is only logged and the write proceeds.  `writeOk` tells whether the
final `open(..., "w")`/write of lines 153-157 succeeds.  The new content is
the header followed by the rows, fully quoted (`QUOTE_ALL`). -/
def save_audit_file (renameOk writeOk : Bool) (timestamp : String) (fs : FS)
    (rows : List (List String)) (targetDir baseFilename : String)
    (header : List String) (delim : Char) : FS :=
  if rows = [] then fs
  else
    let finalPath := joinPath targetDir baseFilename
    let fs1 :=
      if (fs finalPath).isSome then
        let ne := splitext baseFilename
        let backupPath := joinPath targetDir (ne.1 ++ "_" ++ timestamp ++ ne.2)
        if renameOk then fsMove fs finalPath backupPath else fs
      else fs
    if writeOk then
      fsSet fs1 finalPath (some (writeRowsAll delim (header :: rows)))
    else fs1

/-- One step of building the `old_rows` Python dict: an existing key keeps
its position and gets the new value, a fresh key is appended. -/
def dictInsert (m : List (String × List String)) (k : String)
    (v : List String) : List (String × List String) :=
  if m.any (fun p => p.1 = k) then
    m.map (fun p => if p.1 = k then (k, v) else p)
  else m ++ [(k, v)]

/-- Lookup in the association-list model of a Python dict. -/
def dictFind (m : List (String × List String)) (k : String) :
    Option (List String) :=
  (m.find? (fun p => p.1 = k)).map (fun p => p.2)

/-- Embedding of the `old_rows` loading loop (lines 196-199): rows shorter
than the identity index are skipped, later duplicates overwrite earlier ones
(last-write-wins), insertion order of first occurrence is kept. -/
def buildOldRows (idIdx : Nat) (rows : List (List String)) :
    List (String × List String) :=
  rows.foldl
    (fun m row =>
      if idIdx < row.length then dictInsert m (row.getD idIdx "") row else m)
    []

/-- Remove the volatile `"Item"` entry from a row before comparison, exactly
lines 247-251: nothing is removed when the column is absent (`item_idx = -1`)
or the row is too short. -/
def stripVolatile (itemIdx : Option Nat) (row : List String) : List String :=
  match itemIdx with
  | some i => if i < row.length then row.eraseIdx i else row
  | none => row

/-- Whether the comparison loop of lines 228-255 emits this new row into
`diff_rows`: the row must reach the identity index; it is emitted when its
identity is absent from the old snapshot (added) or when the rows differ
with the volatile column excluded from both sides (modified). -/
def diffKeep (oldRows : List (String × List String)) (itemIdx : Option Nat)
    (idIdx : Nat) (row : List String) : Bool :=
  decide (idIdx < row.length) &&
    match dictFind oldRows (row.getD idIdx "") with
    | none => true
    | some oldRow =>
        !(stripVolatile itemIdx row = stripVolatile itemIdx oldRow : Bool)

/-- Embedding of the `diff_rows` accumulation loop of lines 228-255, written
as the fold the Python `for` loop performs. -/
def diffRowsLoop (oldRows : List (String × List String)) (itemIdx : Option Nat)
    (idIdx : Nat) (newRows : List (List String)) : List (List String) :=
  newRows.foldl
    (fun acc row =>
      if idIdx < row.length then
        match dictFind oldRows (row.getD idIdx "") with
        | none => acc ++ [row]
        | some oldRow =>
            if stripVolatile itemIdx row = stripVolatile itemIdx oldRow then acc
            else acc ++ [row]
      else acc)
    []

/-- The `seen_ids` set of lines 203, 232-233: the identity values of all new
rows that reach the identity index. -/
def seenIds (idIdx : Nat) (newRows : List (List String)) : List String :=
  (newRows.filter (fun r => decide (idIdx < r.length))).map
    (fun r => r.getD idIdx "")

/-- Embedding of the `del_rows` loop of lines 257-261: old-snapshot entries
whose identity was never seen in the new file, in dict iteration order. -/
def delRowsLoop (oldRows : List (String × List String)) (seen : List String) :
    List (List String) :=
  oldRows.foldl (fun acc p => if p.1 ∈ seen then acc else acc ++ [p.2]) []

/-- The pair of optional artifact paths returned by
`compare_and_extract_diffs`. -/
structure DiffPaths where
  diff : Option String
  del : Option String
deriving DecidableEq, Repr

/-- One recorded call to `_save_audit_file` (directory, base filename, header
written, rows written). -/
structure SaveCall where
  dir : String
  name : String
  header : List String
  rows : List (List String)
deriving DecidableEq, Repr

/-- Embedding of `FileManager.compare_and_extract_diffs` (lines 162-284) on
parsed files.  `oldFile` is `none` when no file exists at the canonical path
(line 173); otherwise it holds the parsed rows of the canonical file, and
`newFile` the parsed rows of the new download.  The result is the returned
path dictionary together with the list of `_save_audit_file` calls made, in
order; every early `return {'diff': None, 'del': None}` produces
`(⟨none, none⟩, [])`. -/
def compare_and_extract_diffs (oldFile : Option (List (List String)))
    (newFile : List (List String)) (targetDir targetFilename : String) :
    DiffPaths × List SaveCall :=
  match oldFile with
  | none => (⟨none, none⟩, [])
  | some oldAll =>
    match oldAll with
    | [] => (⟨none, none⟩, [])
    | header :: oldData =>
      match header.findIdx? (fun s => s = "IdVentaNegocioDetalle") with
      | none => (⟨none, none⟩, [])
      | some idIdx =>
        let oldRows := buildOldRows idIdx oldData
        match newFile with
        | [] => (⟨none, none⟩, [])
        | newHeader :: newData =>
          match newHeader.findIdx? (fun s => s = "IdVentaNegocioDetalle") with
          | none => (⟨none, none⟩, [])
          | some newIdIdx =>
            let itemIdx := newHeader.findIdx? (fun s => s = "Item")
            let diffRows := diffRowsLoop oldRows itemIdx newIdIdx newData
            let delRows := delRowsLoop oldRows (seenIds newIdIdx newData)
            let baseName := (splitext targetFilename).1
            let diffName := baseName ++ "_Diff.csv"
            let delName := baseName ++ "_Del.csv"
            let diffPart : Option String × List SaveCall :=
              if diffRows = [] then (none, [])
              else (some (joinPath targetDir diffName),
                    [⟨targetDir, diffName, header, diffRows⟩])
            let delPart : Option String × List SaveCall :=
              if delRows = [] then (none, [])
              else (some (joinPath targetDir delName),
                    [⟨targetDir, delName, header, delRows⟩])
            (⟨diffPart.1, delPart.1⟩, diffPart.2 ++ delPart.2)

/-- Modelled from the spec: `FileManager.cleanup_old_files` is invoked at
`src/main.py` line 127 (`cleanup_old_files("ReporteSabana", max_files=15)`)
but its definition is not present under `src/`.  Per spec §4.7
(RetentionSweeper), it lists the files of the working directory and, when the
count exceeds `maxFiles`, deletes the oldest-by-modification-time excess,
keeping exactly the `maxFiles` most recent.  A directory listing is a list of
(name, modification time) pairs; the result is `(kept, deleted)`. -/
def cleanup_old_files (files : List (String × Nat)) (maxFiles : Nat) :
    List (String × Nat) × List (String × Nat) :=
  if files.length ≤ maxFiles then (files, [])
  else
    let sorted := List.insertionSort (fun a b => a.2 ≤ b.2) files
    let excess := files.length - maxFiles
    (sorted.drop excess, sorted.take excess)

/-- Embedding of the delimiter selection of `calculate_sorted_md5` (lines
24-31 of `file_manager.py`): `sniffed` is the outcome of
`csv.Sniffer().sniff(sample)` — `some` the detected delimiter, or `none` when
detection raises — and the fallback on failure is the semicolon. -/
def detectDelimiter (sniffed : Option Char) : Char := sniffed.getD ';'

/-- Embedding of the delimiter selection of `compare_and_extract_diffs`
(line 180 of `file_manager.py`): the constant semicolon, with no detection
step at all. -/
def differDelimiter : Char := ';'

/-- Concrete filesystem for the audit-rotation counterexample: a single
existing audit file `D/a.csv` with content `"OLD"`. -/
def fsAudit : FS := fun p => if p = "D/a.csv" then some "OLD" else none

theorem charToNat_injective : Function.Injective Char.toNat := by
  intro a b h
  have hv : a.val = b.val := UInt32.toNat.inj h
  cases a; cases b; cases hv; rfl

theorem strKey_injective : Function.Injective strKey := by
  intro a b h
  exact String.ext (List.map_injective_iff.mpr charToNat_injective h)

theorem rowKey_injective : Function.Injective rowKey := by
  intro a b h
  exact List.map_injective_iff.mpr strKey_injective h

instance : IsTotal (List String) rowLeP := ⟨fun a b => le_total (rowKey a) (rowKey b)⟩

instance : IsTrans (List String) rowLeP :=
  ⟨fun _ _ _ h1 h2 => le_trans h1 h2⟩

instance : IsAntisymm (List String) rowLeP :=
  ⟨fun _ _ h1 h2 => rowKey_injective (le_antisymm h1 h2)⟩

theorem sortRows_sorted (d : List (List String)) : (sortRows d).Sorted rowLeP :=
  List.sorted_insertionSort rowLeP d

theorem sortRows_perm (d : List (List String)) : (sortRows d).Perm d :=
  List.perm_insertionSort rowLeP d

theorem sortRows_eq_of_perm {d d' : List (List String)} (h : d.Perm d') :
    sortRows d = sortRows d' :=
  List.eq_of_perm_of_sorted
    (((sortRows_perm d).trans h).trans (sortRows_perm d').symm)
    (sortRows_sorted d) (sortRows_sorted d')

end TZ

namespace TZ

/-- C5: For all files, permuting the data rows while keeping the header and
each row's contents fixed leaves `calculate_sorted_md5` unchanged, for every
hash function and delimiter: the rows are sorted by a total antisymmetric
order before serialization, so permuted inputs serialize identically. -/
theorem digest_invariant_under_reorder (md5 : String → String) (delim : Char)
    (header : List String) (data data' : List (List String))
    (h : data.Perm data') :
    calculate_sorted_md5 md5 delim (header :: data)
      = calculate_sorted_md5 md5 delim (header :: data') := by
  cases hidx : header.findIdx? (fun s => s = "Item") with
  | none =>
      simp only [calculate_sorted_md5, hidx]
      rw [sortRows_eq_of_perm h]
  | some i =>
      simp only [calculate_sorted_md5, hidx]
      rw [sortRows_eq_of_perm (h.map (popIdx i))]

/-- Witness for C5 at a concrete file: swapping the two data rows of a
two-row file leaves the digest unchanged. -/
theorem digest_invariant_under_reorder_witness :
    calculate_sorted_md5 id ';' [["A", "B"], ["1", "x"], ["0", "y"]]
      = calculate_sorted_md5 id ';' [["A", "B"], ["0", "y"], ["1", "x"]] :=
  digest_invariant_under_reorder id ';' ["A", "B"]
    [["1", "x"], ["0", "y"]] [["0", "y"], ["1", "x"]] (by decide)

theorem popIdx_congr {i : Nat} {r r' : List String}
    (hlen : r.length = r'.length) (herase : r.eraseIdx i = r'.eraseIdx i) :
    popIdx i r = popIdx i r' := by
  unfold popIdx
  by_cases hi : i < r.length
  · rw [if_pos hi, if_pos (hlen ▸ hi), herase]
  · rw [if_neg hi, if_neg (hlen ▸ hi)]
    rw [List.eraseIdx_eq_self.mpr (Nat.le_of_not_lt hi)] at herase
    rw [List.eraseIdx_eq_self.mpr (Nat.le_of_not_lt (hlen ▸ hi))] at herase
    exact herase

/-- C6: when the volatile column `"Item"` is present in the header at index
`i`, changing only that column's values (each row keeps its length and all
its other fields) leaves `calculate_sorted_md5` unchanged, for every hash
function and delimiter. -/
theorem digest_invariant_under_volatile_change (md5 : String → String)
    (delim : Char) (header : List String) (i : Nat)
    (data data' : List (List String))
    (hidx : header.findIdx? (fun s => s = "Item") = some i)
    (hrows : List.Forall₂
      (fun r r' => r.length = r'.length ∧ r.eraseIdx i = r'.eraseIdx i)
      data data') :
    calculate_sorted_md5 md5 delim (header :: data)
      = calculate_sorted_md5 md5 delim (header :: data') := by
  simp only [calculate_sorted_md5, hidx]
  have hmap : data.map (popIdx i) = data'.map (popIdx i) := by
    induction hrows with
    | nil => rfl
    | cons hpair _ ih =>
        simp only [List.map_cons, ih, List.cons.injEq, and_true]
        exact popIdx_congr hpair.1 hpair.2
  rw [hmap]

/-- Witness for C6 at a concrete file: rewriting every value of the `Item`
column leaves the digest unchanged. -/
theorem digest_invariant_under_volatile_change_witness :
    calculate_sorted_md5 id ';' [["A", "Item"], ["1", "x"], ["2", "y"]]
      = calculate_sorted_md5 id ';' [["A", "Item"], ["1", "u"], ["2", "v"]] :=
  digest_invariant_under_volatile_change id ';' ["A", "Item"] 1
    [["1", "x"], ["2", "y"]] [["1", "u"], ["2", "v"]]
    (by decide) (by decide)

/-- C2: when a canonical file exists, the digests differ and the backup
rename fails, `manage_versioning` aborts with the filesystem unchanged: the
new file is still at its path for retry and the canonical path still holds
its previous content. -/
theorem accept_backup_failure_aborts (digestFn : String → String)
    (timestamp : String) (fs : FS)
    (newFilePath targetDir targetFilename oldContent newContent : String)
    (hold : fs (joinPath targetDir targetFilename) = some oldContent)
    (hnew : fs newFilePath = some newContent)
    (hdiff : digestFn newContent ≠ digestFn oldContent) :
    ∃ fs', manage_versioning digestFn false timestamp fs
        newFilePath targetDir targetFilename
        = some (Outcome.BackupFailed, fs') ∧
      fs' newFilePath = some newContent ∧
      fs' (joinPath targetDir targetFilename) = some oldContent := by
  refine ⟨fs, ?_, hnew, hold⟩
  simp only [manage_versioning, hold, hnew, if_neg hdiff, Bool.false_eq_true,
    if_false]

/-- Witness for C2 on a concrete filesystem holding a canonical file `"old"`
and a differing new download `"new"`. -/
theorem accept_backup_failure_aborts_witness :
    ∃ fs', manage_versioning id false "T"
        (fun p => if p = "tmp/n.csv" then some "new"
                  else if p = "D/F.csv" then some "old" else none)
        "tmp/n.csv" "D" "F.csv"
        = some (Outcome.BackupFailed, fs') ∧
      fs' "tmp/n.csv" = some "new" ∧
      fs' (joinPath "D" "F.csv") = some "old" := by
  have h := accept_backup_failure_aborts id "T"
    (fun p => if p = "tmp/n.csv" then some "new"
              else if p = "D/F.csv" then some "old" else none)
    "tmp/n.csv" "D" "F.csv" "old" "new" (by decide) (by decide) (by decide)
  exact h

/-- C7: with the canonical path initially absent, accepting a new file and
then accepting a byte-identical new file yields `Created` then
`DiscardedIdentical` (never two `Replaced`): the first call moves the new
file to the canonical path, the second deletes the new file and leaves the
canonical content untouched.  `r1ok` and `r2ok` are irrelevant because no
backup rename is attempted on either call. -/
theorem accept_idempotent_on_identical (digestFn : String → String)
    (r1ok r2ok : Bool) (ts1 ts2 : String) (fs : FS)
    (newFilePath targetDir targetFilename c : String)
    (hne : newFilePath ≠ joinPath targetDir targetFilename)
    (habsent : fs (joinPath targetDir targetFilename) = none)
    (hnew : fs newFilePath = some c) :
    ∃ fs1,
      manage_versioning digestFn r1ok ts1 fs newFilePath targetDir
          targetFilename = some (Outcome.Created, fs1) ∧
      fs1 (joinPath targetDir targetFilename) = some c ∧
      fs1 newFilePath = none ∧
      manage_versioning digestFn r2ok ts2 (fsSet fs1 newFilePath (some c))
          newFilePath targetDir targetFilename
        = some (Outcome.DiscardedIdentical,
            fsSet (fsSet fs1 newFilePath (some c)) newFilePath none) ∧
      fsSet (fsSet fs1 newFilePath (some c)) newFilePath none
          (joinPath targetDir targetFilename) = some c := by
  refine ⟨fsMove fs newFilePath (joinPath targetDir targetFilename),
    ?_, ?_, ?_, ?_, ?_⟩
  · simp only [manage_versioning, habsent, hnew]
  · simp only [fsMove, fsSet, if_pos rfl, if_true, hnew]
  · simp only [fsMove, fsSet, if_neg hne, if_pos rfl, if_true]
  · have hfinal :
        fsSet (fsMove fs newFilePath (joinPath targetDir targetFilename))
          newFilePath (some c) (joinPath targetDir targetFilename) = some c := by
      simp only [fsSet, fsMove, if_neg (Ne.symm hne), if_pos rfl, if_true, hnew]
    have hnp :
        fsSet (fsMove fs newFilePath (joinPath targetDir targetFilename))
          newFilePath (some c) newFilePath = some c := by
      simp only [fsSet, if_pos rfl, if_true]
    simp only [manage_versioning, hfinal, hnp, if_pos rfl, if_true]
  · simp only [fsSet, fsMove, if_neg (Ne.symm hne), if_pos rfl, if_true, hnew]

/-- Witness for C7 on a concrete filesystem: the canonical path is absent and
the same content `"x"` is downloaded twice. -/
theorem accept_idempotent_on_identical_witness :
    ∃ fs1,
      manage_versioning id true "T1"
          (fun p => if p = "tmp/n.csv" then some "x" else none)
          "tmp/n.csv" "D" "F.csv" = some (Outcome.Created, fs1) ∧
      fs1 (joinPath "D" "F.csv") = some "x" ∧
      fs1 "tmp/n.csv" = none ∧
      manage_versioning id true "T2" (fsSet fs1 "tmp/n.csv" (some "x"))
          "tmp/n.csv" "D" "F.csv"
        = some (Outcome.DiscardedIdentical,
            fsSet (fsSet fs1 "tmp/n.csv" (some "x")) "tmp/n.csv" none) ∧
      fsSet (fsSet fs1 "tmp/n.csv" (some "x")) "tmp/n.csv" none
          (joinPath "D" "F.csv") = some "x" :=
  accept_idempotent_on_identical id true true "T1" "T2"
    (fun p => if p = "tmp/n.csv" then some "x" else none)
    "tmp/n.csv" "D" "F.csv" "x" (by decide) (by decide) (by decide)

/-- Counterexample to C3 as stated: when the rotation rename fails,
`_save_audit_file` still writes the new rows, so the existing file IS
overwritten: afterwards the target path holds the new serialized content,
`"OLD"` is gone from it, and the timestamped backup name was never created.
The existing content is therefore not preserved on this input. -/
theorem audit_rotation_failure_overwrites :
    save_audit_file false true "T" fsAudit [["r"]] "D" "a.csv" ["H"] ';'
        "D/a.csv" = some "\"H\"\n\"r\"\n" ∧
    save_audit_file false true "T" fsAudit [["r"]] "D" "a.csv" ["H"] ';'
        "D/a.csv" ≠ some "OLD" ∧
    save_audit_file false true "T" fsAudit [["r"]] "D" "a.csv" ["H"] ';'
        "D/a_T.csv" = none := by decide

/-- C3 amended: for a non-empty audit write onto an existing file, a
successful rotation rename preserves the existing content at the timestamped
backup path, and whether or not the rotation rename succeeds, the write of
the new content proceeds (rotation failure is non-fatal), replacing the file
at the target path. -/
theorem audit_rotation_preserves_and_write_proceeds (renameOk : Bool)
    (timestamp : String) (fs : FS) (rows : List (List String))
    (targetDir baseFilename : String) (header : List String) (delim : Char)
    (oldContent : String)
    (hrows : rows ≠ [])
    (hold : fs (joinPath targetDir baseFilename) = some oldContent)
    (hbk : joinPath targetDir ((splitext baseFilename).1 ++ "_" ++ timestamp
        ++ (splitext baseFilename).2) ≠ joinPath targetDir baseFilename) :
    (renameOk = true →
      save_audit_file renameOk true timestamp fs rows targetDir baseFilename
          header delim
          (joinPath targetDir ((splitext baseFilename).1 ++ "_" ++ timestamp
            ++ (splitext baseFilename).2))
        = some oldContent) ∧
    save_audit_file renameOk true timestamp fs rows targetDir baseFilename
        header delim (joinPath targetDir baseFilename)
      = some (writeRowsAll delim (header :: rows)) := by
  cases renameOk with
  | false =>
      refine ⟨fun h => (Bool.false_ne_true h).elim, ?_⟩
      simp only [save_audit_file, if_neg hrows, hold, Option.isSome_some,
        if_true, Bool.false_eq_true, if_false, fsSet, if_pos rfl]
  | true =>
      constructor
      · intro _
        simp only [save_audit_file, if_neg hrows, hold, Option.isSome_some,
          if_true, fsSet, fsMove]
        rw [if_neg hbk]
      · simp only [save_audit_file, if_neg hrows, hold, Option.isSome_some,
          if_true, fsSet, fsMove, if_pos rfl]

/-- Witness for the amended C3 on a concrete filesystem with a successful
rotation: the old content survives at the backup path and the new content is
written at the target path. -/
theorem audit_rotation_preserves_witness :
    (true = true →
      save_audit_file true true "T" fsAudit [["r"]] "D" "a.csv" ["H"] ';'
          (joinPath "D" ((splitext "a.csv").1 ++ "_" ++ "T"
            ++ (splitext "a.csv").2))
        = some "OLD") ∧
    save_audit_file true true "T" fsAudit [["r"]] "D" "a.csv" ["H"] ';'
        (joinPath "D" "a.csv")
      = some (writeRowsAll ';' [["H"], ["r"]]) :=
  audit_rotation_preserves_and_write_proceeds true "T" fsAudit [["r"]]
    "D" "a.csv" ["H"] ';' "OLD" (by decide) (by decide) (by decide)

theorem foldl_step_filterMap {α β : Type} (p : α → Bool) (g : α → β)
    (step : List β → α → List β)
    (hstep : ∀ acc x, step acc x = if p x then acc ++ [g x] else acc) :
    ∀ (l : List α) (acc : List β),
      l.foldl step acc = acc ++ (l.filter p).map g := by
  intro l
  induction l with
  | nil => intro acc; simp
  | cons x xs ih =>
      intro acc
      rw [List.foldl_cons, hstep, List.filter_cons]
      by_cases h : p x
      · rw [if_pos h, if_pos h, ih, List.map_cons, List.append_assoc,
          List.singleton_append]
      · rw [if_neg h, if_neg h, ih]

theorem diffRowsLoop_eq_filter (oldRows : List (String × List String))
    (itemIdx : Option Nat) (idIdx : Nat) (newRows : List (List String)) :
    diffRowsLoop oldRows itemIdx idIdx newRows
      = newRows.filter (diffKeep oldRows itemIdx idIdx) := by
  unfold diffRowsLoop
  rw [foldl_step_filterMap (diffKeep oldRows itemIdx idIdx) (fun r => r) _
      ?_ newRows []]
  · rw [List.map_id', List.nil_append]
  · intro acc row
    by_cases h : idIdx < row.length
    · simp only [if_pos h, diffKeep, decide_eq_true h, Bool.true_and]
      cases hfind : dictFind oldRows (row.getD idIdx "") with
      | none => simp
      | some oldRow =>
          by_cases heq :
              stripVolatile itemIdx row = stripVolatile itemIdx oldRow
          · simp [heq]
          · simp [heq]
    · simp [if_neg h, diffKeep, h]

theorem delRowsLoop_eq_filterMap (oldRows : List (String × List String))
    (seen : List String) :
    delRowsLoop oldRows seen
      = (oldRows.filter (fun q => !decide (q.1 ∈ seen))).map (fun q => q.2) := by
  unfold delRowsLoop
  rw [foldl_step_filterMap (fun q => !decide (q.1 ∈ seen)) (fun q => q.2) _
      ?_ oldRows []]
  · rw [List.nil_append]
  · intro acc q
    by_cases h : q.1 ∈ seen
    · simp [h]
    · simp [h]

theorem getLast?_cons_or {α : Type} (a : α) (l : List α) :
    (a :: l).getLast? = l.getLast?.or (some a) := by
  induction l with
  | nil => rfl
  | cons b m _ =>
      rw [List.getLast?_cons_cons]
      cases hm : (b :: m).getLast? with
      | none => exact absurd (List.getLast?_eq_none_iff.mp hm) (by simp)
      | some x => rfl

theorem dictFind_map_ne {k k' : String} (v : List String) (hne : k' ≠ k) :
    ∀ (m : List (String × List String)),
    dictFind (m.map (fun p => if p.1 = k then (k, v) else p)) k' = dictFind m k' := by
  intro m
  induction m with
  | nil => rfl
  | cons p rest ih =>
      by_cases hp : p.1 = k
      · have h1 : decide (k = k') = false :=
          decide_eq_false (fun h => hne h.symm)
        have h2 : decide (p.1 = k') = false :=
          decide_eq_false (fun h => hne (hp ▸ h).symm)
        simp only [List.map_cons, if_pos hp, dictFind, List.find?_cons, h1, h2]
        exact ih
      · simp only [List.map_cons, if_neg hp, dictFind, List.find?_cons]
        cases hpk : decide (p.1 = k') with
        | true => rfl
        | false => exact ih

theorem dictFind_map_eq (k : String) (v : List String) :
    ∀ (m : List (String × List String)),
      m.any (fun p => p.1 = k) = true →
      dictFind (m.map (fun p => if p.1 = k then (k, v) else p)) k = some v := by
  intro m
  induction m with
  | nil => intro h; cases h
  | cons p rest ih =>
      intro hany
      by_cases hp : p.1 = k
      · simp [dictFind, List.find?_cons, hp]
      · simp only [List.any_cons, decide_eq_true_eq, hp, false_or] at hany
        simp only [List.map_cons, if_neg hp, dictFind, List.find?_cons]
        rw [decide_eq_false hp]
        exact ih hany

theorem dictFind_insert (m : List (String × List String)) (k : String)
    (v : List String) (k' : String) :
    dictFind (dictInsert m k v) k'
      = if k' = k then some v else dictFind m k' := by
  unfold dictInsert
  by_cases hany : m.any (fun p => p.1 = k)
  · rw [if_pos hany]
    by_cases hk : k' = k
    · subst hk; rw [if_pos rfl]; exact dictFind_map_eq k' v m hany
    · rw [if_neg hk]; exact dictFind_map_ne v hk m
  · rw [if_neg hany]
    unfold dictFind
    rw [List.find?_append]
    by_cases hk : k' = k
    · subst hk
      have hm : m.find? (fun p => p.1 = k') = none := by
        rw [List.find?_eq_none]
        intro x hx hpx
        exact hany (List.any_eq_true.mpr ⟨x, hx, hpx⟩)
      simp [hm, List.find?_cons, if_pos rfl]
    · have hs : List.find? (fun p => p.1 = k') [(k, v)] = none := by
        simp [List.find?_cons, Ne.symm hk]
      rw [hs, Option.or_none, if_neg hk]

theorem dictFind_buildOldRows (idIdx : Nat) (k : String) :
    ∀ (rows : List (List String)),
      dictFind (buildOldRows idIdx rows) k
        = (rows.filter (fun r => decide (idIdx < r.length)
            && decide (r.getD idIdx "" = k))).getLast? := by
  have main : ∀ (rows : List (List String)) (m : List (String × List String)),
      dictFind (rows.foldl (fun m row =>
          if idIdx < row.length then dictInsert m (row.getD idIdx "") row
          else m) m) k
        = ((rows.filter (fun r => decide (idIdx < r.length)
            && decide (r.getD idIdx "" = k))).getLast?).or (dictFind m k) := by
    intro rows
    induction rows with
    | nil => intro m; simp
    | cons r rest ih =>
        intro m
        rw [List.foldl_cons, ih, List.filter_cons]
        by_cases hlen : idIdx < r.length
        · rw [if_pos hlen]
          by_cases hkey : r.getD idIdx "" = k
          · rw [if_pos (show (decide (idIdx < r.length)
                && decide (r.getD idIdx "" = k)) = true by
                  rw [decide_eq_true hlen, decide_eq_true hkey]; rfl)]
            rw [dictFind_insert, if_pos hkey.symm, getLast?_cons_or,
              Option.or_assoc]
            rfl
          · rw [if_neg (show ¬ (decide (idIdx < r.length)
                && decide (r.getD idIdx "" = k)) = true by
                  simp only [Bool.and_eq_true, decide_eq_true_eq]
                  exact fun h => hkey h.2)]
            rw [dictFind_insert, if_neg (fun h => hkey h.symm)]
        · rw [if_neg hlen]
          rw [if_neg (show ¬ (decide (idIdx < r.length)
              && decide (r.getD idIdx "" = k)) = true by
                simp only [Bool.and_eq_true, decide_eq_true_eq]
                exact fun h => hlen h.1)]
  intro rows
  rw [buildOldRows, main rows []]
  have hnil : dictFind ([] : List (String × List String)) k = none := rfl
  rw [hnil, Option.or_none]

/-- C4: the `diff_rows` loop equals a filter of the new rows by the per-row
classification rule (identity absent from the old snapshot, or fields unequal
with the volatile column excluded from both sides), so unchanged rows are
dropped and new-file row order is preserved; the `del_rows` loop equals the
old snapshot's entries whose identity was never seen, in snapshot iteration
order; and on the spec's example (old identities 1,2,3; new identities 2,3,4
with row 2 unchanged up to the volatile column and row 3 altered) the full
differ yields `added_or_modified = [row 3, row 4]` and `deleted = [row 1]`. -/
theorem differ_classifies_rows :
    (∀ (oldRows : List (String × List String)) (itemIdx : Option Nat)
        (idIdx : Nat) (newRows : List (List String)),
      diffRowsLoop oldRows itemIdx idIdx newRows
        = newRows.filter (diffKeep oldRows itemIdx idIdx)) ∧
    (∀ (oldRows : List (String × List String)) (seen : List String),
      delRowsLoop oldRows seen
        = (oldRows.filter (fun q => !decide (q.1 ∈ seen))).map (fun q => q.2)) ∧
    compare_and_extract_diffs
        (some [["IdVentaNegocioDetalle", "Val", "Item"],
               ["1", "a", "1"], ["2", "b", "2"], ["3", "c", "3"]])
        [["IdVentaNegocioDetalle", "Val", "Item"],
         ["2", "b", "9"], ["3", "X", "2"], ["4", "d", "3"]]
        "D" "ReporteSabana.csv"
      = (⟨some "D/ReporteSabana_Diff.csv", some "D/ReporteSabana_Del.csv"⟩,
         [⟨"D", "ReporteSabana_Diff.csv",
           ["IdVentaNegocioDetalle", "Val", "Item"],
           [["3", "X", "2"], ["4", "d", "3"]]⟩,
          ⟨"D", "ReporteSabana_Del.csv",
           ["IdVentaNegocioDetalle", "Val", "Item"],
           [["1", "a", "1"]]⟩]) :=
  ⟨diffRowsLoop_eq_filter, delRowsLoop_eq_filterMap, by decide⟩

/-- C10: the emission of `diff_rows` distributes over concatenation of the
new rows — each new row is classified independently of the others, so
duplicate identities in the new file each produce their own entry (shown
concretely for two rows sharing identity "1") — while the old snapshot is
deduplicated before comparison: looking up an identity in the loaded old
snapshot yields the LAST old row carrying it. -/
theorem differ_duplicate_identities_independent :
    (∀ (oldRows : List (String × List String)) (itemIdx : Option Nat)
        (idIdx : Nat) (xs ys : List (List String)),
      diffRowsLoop oldRows itemIdx idIdx (xs ++ ys)
        = diffRowsLoop oldRows itemIdx idIdx xs
          ++ diffRowsLoop oldRows itemIdx idIdx ys) ∧
    (∀ (idIdx : Nat) (rows : List (List String)) (k : String),
      dictFind (buildOldRows idIdx rows) k
        = (rows.filter (fun r => decide (idIdx < r.length)
            && decide (r.getD idIdx "" = k))).getLast?) ∧
    diffRowsLoop [] none 0 [["1", "a"], ["1", "b"]]
      = [["1", "a"], ["1", "b"]] := by
  refine ⟨?_, fun idIdx rows k => dictFind_buildOldRows idIdx k rows, by decide⟩
  intro oldRows itemIdx idIdx xs ys
  rw [diffRowsLoop_eq_filter, diffRowsLoop_eq_filter, diffRowsLoop_eq_filter,
    List.filter_append]

/-- C9: when the identity column name `IdVentaNegocioDetalle` is absent from
the header of the existing file or of the new file, the differ aborts with
both returned paths absent and no audit file written at all (so the canonical
file, which the differ only reads, is untouched). -/
theorem differ_aborts_on_missing_identity
    (oldFile : Option (List (List String))) (newFile : List (List String))
    (targetDir targetFilename : String)
    (h : (∃ hd tl, oldFile = some (hd :: tl)
            ∧ "IdVentaNegocioDetalle" ∉ hd)
       ∨ (∃ nh nt, newFile = nh :: nt ∧ "IdVentaNegocioDetalle" ∉ nh)) :
    compare_and_extract_diffs oldFile newFile targetDir targetFilename
      = (⟨none, none⟩, []) := by
  have hidx : ∀ (l : List String), "IdVentaNegocioDetalle" ∉ l →
      l.findIdx? (fun s => s = "IdVentaNegocioDetalle") = none := by
    intro l hl
    rw [List.findIdx?_eq_none_iff]
    intro x hx
    exact decide_eq_false (fun he => hl (he ▸ hx))
  rcases h with ⟨hd, tl, hof, hmem⟩ | ⟨nh, nt, hnf, hmem⟩
  · subst hof
    simp only [compare_and_extract_diffs, hidx hd hmem]
  · subst hnf
    cases oldFile with
    | none => rfl
    | some oldAll =>
        cases oldAll with
        | nil => rfl
        | cons hd tl =>
            cases hoidx : hd.findIdx? (fun s => s = "IdVentaNegocioDetalle") with
            | none => simp only [compare_and_extract_diffs, hoidx]
            | some i => simp only [compare_and_extract_diffs, hoidx,
                hidx nh hmem]

/-- Witness for C9 at a concrete pair of files whose shared header `["A"]`
lacks the identity column. -/
theorem differ_aborts_on_missing_identity_witness :
    compare_and_extract_diffs (some [["A"], ["1"]]) [["A"], ["2"]] "D" "F.csv"
      = (⟨none, none⟩, []) :=
  differ_aborts_on_missing_identity (some [["A"], ["1"]]) [["A"], ["2"]]
    "D" "F.csv" (Or.inl ⟨["A"], [["1"]], rfl, by decide⟩)

/-- C1 (RetentionSweeper, modelled from the spec): when the directory holds
more files than `maxFiles` and modification times are pairwise distinct, the
sweep keeps exactly `maxFiles` files, keeps-plus-deletes is a permutation of
the original listing, and every kept file is more recently modified than
every deleted file. -/
theorem cleanup_retains_most_recent (files : List (String × Nat))
    (maxFiles : Nat) (hcount : maxFiles < files.length)
    (hdistinct : files.Pairwise (fun a b => a.2 ≠ b.2)) :
    (cleanup_old_files files maxFiles).1.length = maxFiles ∧
    ((cleanup_old_files files maxFiles).2
      ++ (cleanup_old_files files maxFiles).1).Perm files ∧
    ∀ kp ∈ (cleanup_old_files files maxFiles).1,
      ∀ dp ∈ (cleanup_old_files files maxFiles).2, dp.2 < kp.2 := by
  haveI : IsTotal (String × Nat) (fun a b => a.2 ≤ b.2) :=
    ⟨fun a b => Nat.le_total a.2 b.2⟩
  haveI : IsTrans (String × Nat) (fun a b => a.2 ≤ b.2) :=
    ⟨fun _ _ _ h1 h2 => Nat.le_trans h1 h2⟩
  have hnle : ¬ files.length ≤ maxFiles := Nat.not_le.mpr hcount
  have hres : cleanup_old_files files maxFiles
      = ((List.insertionSort (fun a b => a.2 ≤ b.2) files).drop
          (files.length - maxFiles),
         (List.insertionSort (fun a b => a.2 ≤ b.2) files).take
          (files.length - maxFiles)) := by
    unfold cleanup_old_files
    rw [if_neg hnle]
  have hperm : (List.insertionSort (fun a b => a.2 ≤ b.2) files).Perm files :=
    List.perm_insertionSort _ files
  have hlen : (List.insertionSort (fun a b => a.2 ≤ b.2) files).length
      = files.length := List.length_insertionSort _ files
  have hsplit : (List.insertionSort (fun a b => a.2 ≤ b.2) files).take
        (files.length - maxFiles)
      ++ (List.insertionSort (fun a b => a.2 ≤ b.2) files).drop
        (files.length - maxFiles)
      = List.insertionSort (fun a b => a.2 ≤ b.2) files :=
    List.take_append_drop _ _
  have hpairLe : ∀ a ∈ (List.insertionSort (fun a b => a.2 ≤ b.2) files).take
        (files.length - maxFiles),
      ∀ b ∈ (List.insertionSort (fun a b => a.2 ≤ b.2) files).drop
        (files.length - maxFiles), a.2 ≤ b.2 := by
    have hs : List.Pairwise (fun (a b : String × Nat) => a.2 ≤ b.2)
        (List.insertionSort (fun a b => a.2 ≤ b.2) files) :=
      List.sorted_insertionSort _ files
    rw [← hsplit] at hs
    exact (List.pairwise_append.mp hs).2.2
  have hpairNe : ∀ a ∈ (List.insertionSort (fun a b => a.2 ≤ b.2) files).take
        (files.length - maxFiles),
      ∀ b ∈ (List.insertionSort (fun a b => a.2 ≤ b.2) files).drop
        (files.length - maxFiles), a.2 ≠ b.2 := by
    have hp : List.Pairwise (fun (a b : String × Nat) => a.2 ≠ b.2)
        (List.insertionSort (fun a b => a.2 ≤ b.2) files) :=
      (List.Perm.pairwise_iff (fun h => h.symm) hperm).mpr hdistinct
    rw [← hsplit] at hp
    exact (List.pairwise_append.mp hp).2.2
  refine ⟨?_, ?_, ?_⟩
  · rw [hres]
    simp only [List.length_drop, hlen]
    omega
  · rw [hres]
    rw [show ((List.insertionSort (fun a b => a.2 ≤ b.2) files).drop
          (files.length - maxFiles),
        (List.insertionSort (fun a b => a.2 ≤ b.2) files).take
          (files.length - maxFiles)).2
      ++ ((List.insertionSort (fun a b => a.2 ≤ b.2) files).drop
          (files.length - maxFiles),
        (List.insertionSort (fun a b => a.2 ≤ b.2) files).take
          (files.length - maxFiles)).1
      = List.insertionSort (fun a b => a.2 ≤ b.2) files from hsplit]
    exact hperm
  · rw [hres]
    intro kp hk dp hd
    exact Nat.lt_of_le_of_ne (hpairLe dp hd kp hk) (hpairNe dp hd kp hk)

/-- Witness for C1 on a concrete three-file listing with `maxFiles = 2`. -/
theorem cleanup_retains_most_recent_witness :
    (cleanup_old_files [("a", 5), ("b", 1), ("c", 3)] 2).1.length = 2 ∧
    ((cleanup_old_files [("a", 5), ("b", 1), ("c", 3)] 2).2
      ++ (cleanup_old_files [("a", 5), ("b", 1), ("c", 3)] 2).1).Perm
        [("a", 5), ("b", 1), ("c", 3)] ∧
    ∀ kp ∈ (cleanup_old_files [("a", 5), ("b", 1), ("c", 3)] 2).1,
      ∀ dp ∈ (cleanup_old_files [("a", 5), ("b", 1), ("c", 3)] 2).2,
        dp.2 < kp.2 :=
  cleanup_retains_most_recent [("a", 5), ("b", 1), ("c", 3)] 2
    (by decide) (by decide)

/-- Counterexample to C8 as stated: the row differ does not parse with the
detected delimiter.  At a detection outcome of `some ','` — what
`csv.Sniffer().sniff` returns on a comma-delimited sample such as
`"a,b\r\nc,d\r\n"` — the content hasher's delimiter is `','` while the
differ's is the constant `';'`, so the two components parse the same file
with different delimiters. -/
theorem differ_delimiter_not_detected :
    detectDelimiter (some ',') ≠ differDelimiter := by decide

/-- C8 amended: only the content hasher determines its delimiter from the
detection outcome, defaulting to the semicolon exactly when detection fails;
the row differ always parses with the fixed semicolon regardless of content,
so the two components agree only when detection fails or detects `';'`. -/
theorem delimiter_selection (d : Char) :
    differDelimiter = ';' ∧ detectDelimiter none = ';'
      ∧ detectDelimiter (some d) = d ∧
      (detectDelimiter (some d) = differDelimiter ↔ d = ';') := by
  refine ⟨rfl, rfl, rfl, ?_⟩
  constructor
  · intro h; exact h
  · intro h; rw [h]; rfl

end TZ
